import Mathlib

/-!
Shallow embedding of `src/ec2scheduler/scheduler.py`.

The program reconciles EC2 instance power state against a weekly schedule and
reregisters load-balancer instances.  Pure logic (`_get_desired_state`,
`_get_instance_ids`) is embedded as Lean functions.  Side-effecting code
(`start_stop_instances`, `reregister_elb_instances`, `schedule`) is embedded as
functions producing a trace of the provider calls they issue paired with an
optional uncaught Python exception (`List Event × Option String`); a raised
exception aborts the rest of the computation exactly as Python propagation
does, while a caught exception leaves the trace intact.  The cloud provider is
an oracle `ProviderEnv` supplying the result of each boto call.  The clock
(`utcnow().hour` and the lowercase weekday name) is passed as explicit
`hour`/`day` parameters.
-/

namespace EC2Scheduler

/-- The two desired-state strings `'start'`/`'stop'` produced by
`_get_desired_state` in scheduler.py. -/
inductive DesiredState where
  | start : DesiredState
  | stop : DesiredState
deriving DecidableEq, Repr

/-- One weekday's `{start, stop}` entry of a profile's schedule
(JSON integers: hour of day). -/
structure DayEntry where
  start : Int
  stop : Int
deriving DecidableEq, Repr

/-- A weekly schedule: the Python dict from lowercase weekday name to its
`DayEntry`, embedded as an association list (`schedule[day]` is `lookup`). -/
abbrev WeeklySchedule := List (String × DayEntry)

/-- `_get_desired_state` from scheduler.py.  Reads `start`/`stop` for the
current weekday (a missing weekday raises `KeyError`, embedded as
`.error day`), then returns `'start'` iff
`current_hour >= start and current_hour < stop`, else `'stop'`. -/
def _get_desired_state (sched : WeeklySchedule) (current_hour : Int)
    (current_week_day : String) : Except String DesiredState :=
  match sched.lookup current_week_day with
  | none => .error current_week_day
  | some entry =>
      let state :=
        if current_hour ≥ entry.start ∧ current_hour < entry.stop then
          DesiredState.start
        else
          DesiredState.stop
      .ok state

/-- A boto EC2 instance as the core uses it: `id`, `state` (a raw state
string such as `"running"`, `"stopped"`, `"pending"`), `placement`. -/
structure Instance where
  id : String
  state : String
  placement : String
deriving DecidableEq, Repr

/-- A boto reservation: wrapper holding a list of instances, as returned by
`get_all_instances`. -/
structure Reservation where
  instances : List Instance
deriving DecidableEq, Repr

/-- A boto load balancer as `reregister_elb_instances` uses it: its `name`
and its currently attached `instances` (only their `id` is read). -/
structure LoadBalancer where
  name : String
  instances : List Instance
deriving DecidableEq, Repr

/-- Observable provider interactions of one cycle: each constructor is one
boto call (or `time.sleep`) issued by scheduler.py. -/
inductive Event where
  | getInstances (tags : String) (region : String)
  | stopCall (id : String)
  | startCall (id : String)
  | getLoadBalancersCall (names : List String)
  | deregisterCall (name : String) (ids : List String)
  | registerCall (name : String) (ids : List String)
  | sleepCall (seconds : Nat)
deriving DecidableEq, Repr

/-- `_get_instance_ids` from scheduler.py: builds the id list by appending
`instance.id` for each instance in order. -/
def _get_instance_ids (instances : List Instance) : List String :=
  instances.foldl (fun instance_ids inst => instance_ids ++ [inst.id]) []

/-- Sequential execution of one action per list element with Python exception
propagation: an uncaught exception from one element stops the iteration and
propagates, keeping the events already issued. -/
def runSeq {α : Type} (f : α → List Event × Option String) :
    List α → List Event × Option String
  | [] => ([], none)
  | x :: xs =>
      match f x with
      | (tr, some e) => (tr, some e)
      | (tr, none) =>
          match runSeq f xs with
          | (tr2, e2) => (tr ++ tr2, e2)

/-- Body of the inner loop of `start_stop_instances` for one instance:
`if instance.state == 'running' and _get_desired_state(schedule) == 'stop'`
issue a stop, `elif instance.state == 'stopped' and ... == 'start'` issue a
start, else nothing.  Python `and` short-circuits, so `_get_desired_state`
(and hence its `KeyError`) is only reached when the state string matches. -/
def process_instance (sched : WeeklySchedule) (hour : Int) (day : String)
    (inst : Instance) : List Event × Option String :=
  if inst.state = "running" then
    match _get_desired_state sched hour day with
    | .error e => ([], some e)
    | .ok d =>
        if d = DesiredState.stop then ([Event.stopCall inst.id], none)
        else ([], none)
  else if inst.state = "stopped" then
    match _get_desired_state sched hour day with
    | .error e => ([], some e)
    | .ok d =>
        if d = DesiredState.start then ([Event.startCall inst.id], none)
        else ([], none)
  else ([], none)

/-- `start_stop_instances` from scheduler.py: iterate the reservations and
their instances, issuing start/stop per the transition rules. -/
def start_stop_instances (instances : List Reservation) (sched : WeeklySchedule)
    (hour : Int) (day : String) : List Event × Option String :=
  runSeq (fun r => runSeq (process_instance sched hour day) r.instances) instances

/-- The cloud provider oracle: the outcome of each boto call the core issues.
`get_all_instances` takes the tag filter and region; `get_all_load_balancers`
takes the region and the requested names; the deregister/register calls take
the balancer name and the instance ids.  An `.error` outcome is the call
raising an exception. -/
structure ProviderEnv where
  get_all_instances : String → String → Except String (List Reservation)
  get_all_load_balancers : String → List String → Except String (List LoadBalancer)
  deregister_instances : String → List String → Except String Unit
  register_instances : String → List String → Except String Unit

/-- Body of the `for elb in elbs` loop of `reregister_elb_instances`:
compute the attached ids, `try` deregister then register (`except Exception`
catches any failure of the pair, so nothing propagates; when deregister
raises, register is never issued; a register failure changes nothing
observable since the call was already issued and the exception is caught),
then `time.sleep(1)`. -/
def reregister_one (env : ProviderEnv) (elb : LoadBalancer) : List Event :=
  let instance_ids := _get_instance_ids elb.instances
  match env.deregister_instances elb.name instance_ids with
  | .error _ =>
      [Event.deregisterCall elb.name instance_ids, Event.sleepCall 1]
  | .ok _ =>
      [Event.deregisterCall elb.name instance_ids,
       Event.registerCall elb.name instance_ids, Event.sleepCall 1]

/-- A scheduling profile from the schedule file.  `elb_names` is `none` when
the `'elb_names'` key is absent from the profile dict. -/
structure Profile where
  name : String
  region : String
  instance_tags : String
  schedule : WeeklySchedule
  elb_names : Option (List String)
deriving DecidableEq, Repr

/-- `reregister_elb_instances` from scheduler.py: nothing when the
`'elb_names'` key is absent; otherwise list the named load balancers (a
failure here is not caught and propagates) and run the per-balancer
deregister/register loop. -/
def reregister_elb_instances (env : ProviderEnv) (p : Profile) :
    List Event × Option String :=
  match p.elb_names with
  | none => ([], none)
  | some names =>
      match env.get_all_load_balancers p.region names with
      | .error e => ([Event.getLoadBalancersCall names], some e)
      | .ok elbs =>
          (Event.getLoadBalancersCall names ::
            (elbs.map (reregister_one env)).flatten, none)

/-- Body of the `for profile in schedules['profiles']` loop of `schedule()`:
list the profile's instances, reconcile, then reregister.  There is no
try/except here, so an exception from any of the three steps propagates. -/
def process_profile (env : ProviderEnv) (hour : Int) (day : String)
    (p : Profile) : List Event × Option String :=
  match env.get_all_instances p.instance_tags p.region with
  | .error e => ([Event.getInstances p.instance_tags p.region], some e)
  | .ok instances =>
      match start_stop_instances instances p.schedule hour day with
      | (tr, some e) =>
          (Event.getInstances p.instance_tags p.region :: tr, some e)
      | (tr, none) =>
          match reregister_elb_instances env p with
          | (tr2, e2) =>
              (Event.getInstances p.instance_tags p.region :: (tr ++ tr2), e2)

/-- `schedule()` from scheduler.py: iterate all profiles in order; there is
no per-profile exception handling in the source. -/
def schedule (env : ProviderEnv) (hour : Int) (day : String)
    (profiles : List Profile) : List Event × Option String :=
  runSeq (process_profile env hour day) profiles

/-- Claim C1: with the current weekday present in the schedule, the desired
state is `start` iff `start <= hour < stop`, is `stop` otherwise, and is
always one of exactly these two values. -/
theorem desired_state_iff (sched : WeeklySchedule) (hour : Int) (day : String)
    (entry : DayEntry) (h : sched.lookup day = some entry) :
    (_get_desired_state sched hour day = Except.ok DesiredState.start ↔
      entry.start ≤ hour ∧ hour < entry.stop) ∧
    (¬(entry.start ≤ hour ∧ hour < entry.stop) →
      _get_desired_state sched hour day = Except.ok DesiredState.stop) ∧
    (_get_desired_state sched hour day = Except.ok DesiredState.start ∨
      _get_desired_state sched hour day = Except.ok DesiredState.stop) := by
  unfold _get_desired_state
  rw [h]
  simp only [ge_iff_le]
  by_cases hc : entry.start ≤ hour ∧ hour < entry.stop
  · rw [if_pos hc]
    exact ⟨⟨fun _ => hc, fun _ => rfl⟩, fun hn => absurd hc hn, Or.inl rfl⟩
  · rw [if_neg hc]
    exact ⟨⟨fun he => absurd he (by simp), fun hs => absurd hs hc⟩,
      fun _ => rfl, Or.inr rfl⟩

/-- Witness for C1 at a concrete schedule: Monday 9–18, hour 10. -/
theorem desired_state_iff_witness :
    ([("monday", DayEntry.mk 9 18)] : WeeklySchedule).lookup "monday" =
      some (DayEntry.mk 9 18) ∧
    (_get_desired_state [("monday", DayEntry.mk 9 18)] 10 "monday" =
        Except.ok DesiredState.start ↔ (9 : Int) ≤ 10 ∧ (10 : Int) < 18) ∧
    (¬((9 : Int) ≤ 10 ∧ (10 : Int) < 18) →
      _get_desired_state [("monday", DayEntry.mk 9 18)] 10 "monday" =
        Except.ok DesiredState.stop) ∧
    (_get_desired_state [("monday", DayEntry.mk 9 18)] 10 "monday" =
        Except.ok DesiredState.start ∨
      _get_desired_state [("monday", DayEntry.mk 9 18)] 10 "monday" =
        Except.ok DesiredState.stop) :=
  ⟨rfl, desired_state_iff [("monday", DayEntry.mk 9 18)] 10 "monday"
    (DayEntry.mk 9 18) rfl⟩

/-- Claim C5: when the schedule has no entry for the current weekday,
`_get_desired_state` fails with the key-lookup error instead of returning a
default state. -/
theorem desired_state_missing_weekday (sched : WeeklySchedule) (hour : Int)
    (day : String) (h : sched.lookup day = none) :
    _get_desired_state sched hour day = Except.error day := by
  unfold _get_desired_state
  rw [h]

/-- Witness for C5: empty schedule, weekday monday. -/
theorem desired_state_missing_weekday_witness :
    ([] : WeeklySchedule).lookup "monday" = none ∧
    _get_desired_state [] 3 "monday" = Except.error "monday" :=
  ⟨rfl, desired_state_missing_weekday [] 3 "monday" rfl⟩

/-- Claim C8: an entry with `start == stop` or `start > stop` yields desired
state `stop` at every hour; such windows never wrap past midnight. -/
theorem desired_state_degenerate_window (sched : WeeklySchedule) (hour : Int)
    (day : String) (entry : DayEntry) (h : sched.lookup day = some entry)
    (hw : entry.start = entry.stop ∨ entry.stop < entry.start) :
    _get_desired_state sched hour day = Except.ok DesiredState.stop := by
  have hle : entry.stop ≤ entry.start := by
    rcases hw with he | hl
    · exact le_of_eq he.symm
    · exact le_of_lt hl
  unfold _get_desired_state
  rw [h]
  simp only [ge_iff_le]
  have hc : ¬(entry.start ≤ hour ∧ hour < entry.stop) := by
    rintro ⟨h1, h2⟩
    exact absurd (lt_of_lt_of_le h2 (le_trans hle h1)) (lt_irrefl hour)
  rw [if_neg hc]

/-- Witness for C8: Monday 18–9 (start > stop), hour 20. -/
theorem desired_state_degenerate_window_witness :
    ([("monday", DayEntry.mk 18 9)] : WeeklySchedule).lookup "monday" =
      some (DayEntry.mk 18 9) ∧
    ((DayEntry.mk 18 9).start = (DayEntry.mk 18 9).stop ∨
      (DayEntry.mk 18 9).stop < (DayEntry.mk 18 9).start) ∧
    _get_desired_state [("monday", DayEntry.mk 18 9)] 20 "monday" =
      Except.ok DesiredState.stop :=
  ⟨rfl, Or.inr (by decide),
    desired_state_degenerate_window [("monday", DayEntry.mk 18 9)] 20 "monday"
      (DayEntry.mk 18 9) rfl (Or.inr (by decide))⟩

/-- A concrete schedule: Monday 9–18. -/
def sched_mon : WeeklySchedule := [("monday", DayEntry.mk 9 18)]

/-- A concrete running instance. -/
def inst_running : Instance := Instance.mk "i-1" "running" "r1"

/-- A provider environment where listing instances for tag `"t1"` raises and
every other call succeeds with an empty result. -/
def envBoom : ProviderEnv where
  get_all_instances := fun tags _ =>
    if tags = "t1" then .error "boom" else .ok []
  get_all_load_balancers := fun _ _ => .ok []
  deregister_instances := fun _ _ => .ok ()
  register_instances := fun _ _ => .ok ()

/-- A concrete profile whose instance listing fails under `envBoom`. -/
def profile1 : Profile := Profile.mk "p1" "r1" "t1" sched_mon none

/-- A concrete profile whose processing succeeds under `envBoom`. -/
def profile2 : Profile := Profile.mk "p2" "r1" "t2" sched_mon none

/-- A concrete profile with a present-but-empty `elb_names` list. -/
def profileEmptyElb : Profile := Profile.mk "p3" "r1" "t2" sched_mon (some [])

/-- Claim C2: the reconciler's transition table for one instance: a stop is
issued iff the observed state is `running` and the desired state is `stop`; a
start is issued iff the observed state is `stopped` and the desired state is
`start`; in every other combination, including transitional states, no action
is issued. -/
theorem reconcile_transition_table (sched : WeeklySchedule) (hour : Int)
    (day : String) (inst : Instance) (d : DesiredState)
    (h : _get_desired_state sched hour day = Except.ok d) :
    process_instance sched hour day inst =
      if inst.state = "running" ∧ d = DesiredState.stop then
        ([Event.stopCall inst.id], none)
      else if inst.state = "stopped" ∧ d = DesiredState.start then
        ([Event.startCall inst.id], none)
      else ([], none) := by
  unfold process_instance
  rw [h]
  by_cases hr : inst.state = "running"
  · have hs : ¬(inst.state = "stopped") := by rw [hr]; decide
    cases d with
    | start => simp [hr, hs]
    | stop => simp [hr]
  · by_cases hs : inst.state = "stopped"
    · cases d with
      | start => simp [hr, hs]
      | stop => simp [hr, hs]
    · simp [hr, hs]

/-- Witness for C2: Monday 9–18 at hour 19 (desired stop), running instance. -/
theorem reconcile_transition_table_witness :
    _get_desired_state sched_mon 19 "monday" = Except.ok DesiredState.stop ∧
    process_instance sched_mon 19 "monday" inst_running =
      (if inst_running.state = "running" ∧ DesiredState.stop = DesiredState.stop then
        ([Event.stopCall inst_running.id], none)
      else if inst_running.state = "stopped" ∧ DesiredState.stop = DesiredState.start then
        ([Event.startCall inst_running.id], none)
      else ([], none)) :=
  ⟨rfl, reconcile_transition_table sched_mon 19 "monday" inst_running
    DesiredState.stop rfl⟩

/-- Claim C3 counterexample: two profiles where the first profile's instance
listing raises — the cycle does not catch the failure (the error escapes
`schedule`) and the second profile is never processed: its instance-listing
call is absent from the trace. -/
theorem schedule_no_profile_isolation :
    schedule envBoom 10 "monday" [profile1, profile2] =
      ([Event.getInstances "t1" "r1"], some "boom") ∧
    Event.getInstances "t2" "r1" ∉
      (schedule envBoom 10 "monday" [profile1, profile2]).1 := by
  refine ⟨rfl, ?_⟩
  intro hmem
  rw [show (schedule envBoom 10 "monday" [profile1, profile2]).1 =
    [Event.getInstances "t1" "r1"] from rfl] at hmem
  simp at hmem

/-- Claim C3 amended: an exception raised while reconciling or reregistering
one profile is not caught by the cycle: it propagates out of `schedule` and
the remaining profiles of that cycle are not processed. -/
theorem schedule_error_propagates (env : ProviderEnv) (hour : Int)
    (day : String) (p : Profile) (rest : List Profile) (tr : List Event)
    (e : String) (h : process_profile env hour day p = (tr, some e)) :
    schedule env hour day (p :: rest) = (tr, some e) := by
  unfold schedule runSeq
  rw [h]

/-- Witness for the amended C3: under `envBoom`, profile `p1` fails and the
cycle returns its error. -/
theorem schedule_error_propagates_witness :
    process_profile envBoom 10 "monday" profile1 =
      ([Event.getInstances "t1" "r1"], some "boom") ∧
    schedule envBoom 10 "monday" [profile1] =
      ([Event.getInstances "t1" "r1"], some "boom") :=
  ⟨rfl, schedule_error_propagates envBoom 10 "monday" profile1 []
    [Event.getInstances "t1" "r1"] "boom" rfl⟩

/-- Claim C4 counterexample: a profile whose `elb_names` key is present but
holds an empty list still issues the load-balancer listing call — the
refresh performs one provider call, not zero. -/
theorem reregister_empty_elb_names_calls :
    reregister_elb_instances envBoom profileEmptyElb =
      ([Event.getLoadBalancersCall []], none) ∧
    (reregister_elb_instances envBoom profileEmptyElb).1 ≠ [] := by
  refine ⟨rfl, ?_⟩
  intro hc
  rw [show (reregister_elb_instances envBoom profileEmptyElb).1 =
    [Event.getLoadBalancersCall []] from rfl] at hc
  exact List.cons_ne_nil _ _ hc

/-- Claim C4 amended: when the `elb_names` key is absent from the profile,
reregistration is a no-op: zero provider calls and no error. -/
theorem reregister_absent_elb_names (env : ProviderEnv) (p : Profile)
    (h : p.elb_names = none) :
    reregister_elb_instances env p = ([], none) := by
  unfold reregister_elb_instances
  rw [h]

/-- Witness for the amended C4: profile `p1` has no `elb_names`. -/
theorem reregister_absent_elb_names_witness :
    profile1.elb_names = none ∧
    reregister_elb_instances envBoom profile1 = ([], none) :=
  ⟨rfl, reregister_absent_elb_names envBoom profile1 rfl⟩

/-- A concrete load balancer whose deregister call will fail under `envLb`. -/
def lbA : LoadBalancer := LoadBalancer.mk "lb-a" [Instance.mk "i-a" "running" "r1"]

/-- A concrete load balancer whose calls succeed. -/
def lbB : LoadBalancer := LoadBalancer.mk "lb-b" [Instance.mk "i-b" "running" "r1"]

/-- A provider environment where deregistering on `lb-a` raises
`"no instances"` and every other call succeeds. -/
def envLb : ProviderEnv where
  get_all_instances := fun _ _ => .ok []
  get_all_load_balancers := fun _ names =>
    if names = ["lb-a", "lb-b"] then .ok [lbA, lbB] else .ok []
  deregister_instances := fun name _ =>
    if name = "lb-a" then .error "no instances" else .ok ()
  register_instances := fun _ _ => .ok ()

/-- A provider environment where every load-balancer call succeeds. -/
def envLbOk : ProviderEnv where
  get_all_instances := fun _ _ => .ok []
  get_all_load_balancers := fun _ names =>
    if names = ["lb-a", "lb-b"] then .ok [lbA, lbB] else .ok []
  deregister_instances := fun _ _ => .ok ()
  register_instances := fun _ _ => .ok ()

/-- A concrete profile naming two load balancers. -/
def profileLb : Profile := Profile.mk "p4" "r1" "t2" sched_mon (some ["lb-a", "lb-b"])

/-- Claim C6: after a successful listing, and for arbitrary outcomes of the
deregister/register calls (failures included), no error escapes the refresh
— the per-balancer `try/except` catches it — and every listed balancer's
deregister call, including those after a failing balancer, is still issued. -/
theorem reregister_failure_isolation (env : ProviderEnv) (p : Profile)
    (names : List String) (elbs : List LoadBalancer)
    (h1 : p.elb_names = some names)
    (h2 : env.get_all_load_balancers p.region names = Except.ok elbs) :
    reregister_elb_instances env p =
      (Event.getLoadBalancersCall names ::
        (elbs.map (reregister_one env)).flatten, none) ∧
    ∀ elb ∈ elbs,
      Event.deregisterCall elb.name (_get_instance_ids elb.instances) ∈
        (reregister_elb_instances env p).1 := by
  have heq : reregister_elb_instances env p =
      (Event.getLoadBalancersCall names ::
        (elbs.map (reregister_one env)).flatten, none) := by
    simp only [reregister_elb_instances, h1, h2]
  refine ⟨heq, fun elb hm => ?_⟩
  rw [heq]
  apply List.mem_cons_of_mem
  rw [List.mem_flatten]
  refine ⟨reregister_one env elb, List.mem_map_of_mem _ hm, ?_⟩
  rcases hdr : env.deregister_instances elb.name (_get_instance_ids elb.instances) with e | u
  · simp [reregister_one, hdr]
  · simp [reregister_one, hdr]

/-- Witness for C6: `lb-a`'s deregister raises, yet `lb-b`'s deregister call
still appears in the trace and no error escapes. -/
theorem reregister_failure_isolation_witness :
    profileLb.elb_names = some ["lb-a", "lb-b"] ∧
    envLb.get_all_load_balancers profileLb.region ["lb-a", "lb-b"] =
      Except.ok [lbA, lbB] ∧
    (reregister_elb_instances envLb profileLb =
      (Event.getLoadBalancersCall ["lb-a", "lb-b"] ::
        ([lbA, lbB].map (reregister_one envLb)).flatten, none) ∧
    ∀ elb ∈ [lbA, lbB],
      Event.deregisterCall elb.name (_get_instance_ids elb.instances) ∈
        (reregister_elb_instances envLb profileLb).1) :=
  ⟨rfl, rfl,
    reregister_failure_isolation envLb profileLb ["lb-a", "lb-b"] [lbA, lbB] rfl rfl⟩

/-- Claim C7: when every deregister call succeeds, the refresh issues, per
listed balancer, exactly one deregister call immediately followed by exactly
one register call, both over the full list of ids attached to that balancer,
with the 1-second sleep after each pair; and the listing call before them. -/
theorem reregister_pair_per_balancer (env : ProviderEnv) (p : Profile)
    (names : List String) (elbs : List LoadBalancer)
    (h1 : p.elb_names = some names)
    (h2 : env.get_all_load_balancers p.region names = Except.ok elbs)
    (h3 : ∀ elb ∈ elbs,
      env.deregister_instances elb.name (_get_instance_ids elb.instances) =
        Except.ok ()) :
    reregister_elb_instances env p =
      (Event.getLoadBalancersCall names ::
        (elbs.map (fun elb =>
          [Event.deregisterCall elb.name (_get_instance_ids elb.instances),
           Event.registerCall elb.name (_get_instance_ids elb.instances),
           Event.sleepCall 1])).flatten, none) := by
  have hmap : elbs.map (reregister_one env) =
      elbs.map (fun elb =>
        [Event.deregisterCall elb.name (_get_instance_ids elb.instances),
         Event.registerCall elb.name (_get_instance_ids elb.instances),
         Event.sleepCall 1]) := by
    apply List.map_congr_left
    intro elb hm
    simp only [reregister_one]
    rw [h3 elb hm]
  simp only [reregister_elb_instances, h1, h2, hmap]

/-- Witness for C7 over `envLbOk` and two balancers. -/
theorem reregister_pair_per_balancer_witness :
    profileLb.elb_names = some ["lb-a", "lb-b"] ∧
    envLbOk.get_all_load_balancers profileLb.region ["lb-a", "lb-b"] =
      Except.ok [lbA, lbB] ∧
    reregister_elb_instances envLbOk profileLb =
      (Event.getLoadBalancersCall ["lb-a", "lb-b"] ::
        ([lbA, lbB].map (fun elb =>
          [Event.deregisterCall elb.name (_get_instance_ids elb.instances),
           Event.registerCall elb.name (_get_instance_ids elb.instances),
           Event.sleepCall 1])).flatten, none) :=
  ⟨rfl, rfl,
    reregister_pair_per_balancer envLbOk profileLb ["lb-a", "lb-b"] [lbA, lbB]
      rfl rfl (fun _ _ => rfl)⟩

/-- A concrete reservation holding the running instance. -/
def res_running : Reservation := Reservation.mk [inst_running]

/-- Claim C9 counterexample: instance observed running at Monday 19:00 under
the 9–18 schedule.  The first run issues a stop; a second run over the same
observed states and the same clock reading is the identical computation, so
it issues the same stop rather than no action. -/
theorem reconcile_not_idempotent_same_observation :
    (start_stop_instances [res_running] sched_mon 19 "monday").1 =
      [Event.stopCall "i-1"] ∧
    (start_stop_instances [res_running] sched_mon 19 "monday").1 ≠ [] := by
  refine ⟨rfl, ?_⟩
  intro hc
  rw [show (start_stop_instances [res_running] sched_mon 19 "monday").1 =
    [Event.stopCall "i-1"] from rfl] at hc
  exact List.cons_ne_nil _ _ hc

/-- Models the provider completing the action, if any, that a reconciliation
pass issued for one instance: a running instance that was issued a stop is
subsequently observed stopped, a stopped instance that was issued a start is
observed running; any other instance is observed unchanged. -/
def settle_instance (sched : WeeklySchedule) (hour : Int) (day : String)
    (inst : Instance) : Instance :=
  match (process_instance sched hour day inst).1 with
  | [Event.stopCall _] => { inst with state := "stopped" }
  | [Event.startCall _] => { inst with state := "running" }
  | _ => inst

/-- `settle_instance` lifted over a reservation. -/
def settle_reservation (sched : WeeklySchedule) (hour : Int) (day : String)
    (r : Reservation) : Reservation :=
  Reservation.mk (r.instances.map (settle_instance sched hour day))

/-- After its issued action has taken effect, one instance triggers no
further action. -/
theorem process_instance_settled (sched : WeeklySchedule) (hour : Int)
    (day : String) (inst : Instance) :
    (process_instance sched hour day (settle_instance sched hour day inst)).1 = [] := by
  by_cases hr : inst.state = "running"
  · rcases hd : _get_desired_state sched hour day with e | d
    · have hp : process_instance sched hour day inst = ([], some e) := by
        simp [process_instance, hr, hd]
      have hs : settle_instance sched hour day inst = inst := by
        simp [settle_instance, hp]
      rw [hs, hp]
    · cases d with
      | start =>
          have hp : process_instance sched hour day inst = ([], none) := by
            simp [process_instance, hr, hd]
          have hs : settle_instance sched hour day inst = inst := by
            simp [settle_instance, hp]
          rw [hs, hp]
      | stop =>
          have hp : process_instance sched hour day inst =
              ([Event.stopCall inst.id], none) := by
            simp [process_instance, hr, hd]
          have hs : settle_instance sched hour day inst =
              { inst with state := "stopped" } := by
            simp [settle_instance, hp]
          rw [hs]
          simp [process_instance, hd]
  · by_cases hst : inst.state = "stopped"
    · rcases hd : _get_desired_state sched hour day with e | d
      · have hp : process_instance sched hour day inst = ([], some e) := by
          simp [process_instance, hr, hst, hd]
        have hs : settle_instance sched hour day inst = inst := by
          simp [settle_instance, hp]
        rw [hs, hp]
      · cases d with
        | start =>
            have hp : process_instance sched hour day inst =
                ([Event.startCall inst.id], none) := by
              simp [process_instance, hr, hst, hd]
            have hs : settle_instance sched hour day inst =
                { inst with state := "running" } := by
              simp [settle_instance, hp]
            rw [hs]
            simp [process_instance, hd]
        | stop =>
            have hp : process_instance sched hour day inst = ([], none) := by
              simp [process_instance, hr, hst, hd]
            have hs : settle_instance sched hour day inst = inst := by
              simp [settle_instance, hp]
            rw [hs, hp]
    · have hp : process_instance sched hour day inst = ([], none) := by
        simp [process_instance, hr, hst]
      have hs : settle_instance sched hour day inst = inst := by
        simp [settle_instance, hp]
      rw [hs, hp]

/-- A `runSeq` whose every element issues no event issues no event overall,
whether or not an exception aborts the iteration early. -/
theorem runSeq_fst_nil {α : Type} (f : α → List Event × Option String)
    (l : List α) (h : ∀ x ∈ l, (f x).1 = []) : (runSeq f l).1 = [] := by
  induction l with
  | nil => rfl
  | cons x xs ih =>
      have hx : (f x).1 = [] := h x (List.mem_cons_self x xs)
      have hxs : (runSeq f xs).1 = [] :=
        ih (fun y hy => h y (List.mem_cons_of_mem x hy))
      unfold runSeq
      rcases hfx : f x with ⟨tr, err⟩
      have htr : tr = [] := by rw [hfx] at hx; exact hx
      cases err with
      | none =>
          rcases hrs : runSeq f xs with ⟨tr2, e2⟩
          rw [hrs] at hxs
          simp at hxs
          simp [htr, hxs]
      | some e => simpa using htr

/-- Claim C9 amended: once the actions issued by a reconciliation pass have
taken effect on the observed states (each instance it stopped observed
stopped, each it started observed running, all others unchanged), an
immediately following pass with the same clock reading issues no start or
stop action.  With observed states literally unchanged, the second pass
instead repeats the first pass's actions. -/
theorem reconcile_idempotent_after_settle (instances : List Reservation)
    (sched : WeeklySchedule) (hour : Int) (day : String) :
    (start_stop_instances (instances.map (settle_reservation sched hour day))
      sched hour day).1 = [] := by
  unfold start_stop_instances
  apply runSeq_fst_nil
  intro r hr
  rcases List.mem_map.1 hr with ⟨r0, hr0, rfl⟩
  apply runSeq_fst_nil
  intro i hi
  simp only [settle_reservation] at hi
  rcases List.mem_map.1 hi with ⟨i0, hi0, rfl⟩
  exact process_instance_settled sched hour day i0

/-- `_get_instance_ids` with an arbitrary accumulator. -/
theorem _get_instance_ids_aux (l : List Instance) (acc : List String) :
    l.foldl (fun instance_ids inst => instance_ids ++ [inst.id]) acc =
      acc ++ l.map Instance.id := by
  induction l generalizing acc with
  | nil => simp
  | cons x xs ih => simp [List.foldl_cons, ih, List.append_assoc]

/-- Claim C10: `_get_instance_ids` is the map of the id projection over its
input — same length, exactly each input instance's id, in input order. -/
theorem get_instance_ids_is_map (instances : List Instance) :
    _get_instance_ids instances = instances.map Instance.id ∧
    (_get_instance_ids instances).length = instances.length := by
  have h1 : _get_instance_ids instances = instances.map Instance.id := by
    unfold _get_instance_ids
    simpa using _get_instance_ids_aux instances []
  exact ⟨h1, by rw [h1]; simp⟩

end EC2Scheduler
